import Mathlib

/-!
# Verification of the sidecar SSE event taxonomy and encoding contract

Shallow embedding of `src/sidecar/src/types/sse_events.rs`: the closed set of
SSE event variants, their serde-derived JSON wire encoding, the hex-encoding
correlation accessors, and the test-only random constructors.

Hash, key and signature material is modelled as lists of byte values
(`List Nat`, each `< 256`).  The JSON wire form is modelled by an explicit
`Json` tree.  External domain types (`Deploy`, `JsonBlock`, `ProtocolVersion`,
`ExecutionResult`, the finality signature) live in external crates, so their
shapes are modelled from the spec where the source file only consumes them.
-/

namespace SseEvents

/-- A JSON value, the wire form every event serializes to. -/
inductive Json where
  | str (s : String)
  | num (n : Nat)
  | arr (xs : List Json)
  | obj (fields : List (String × Json))
deriving Repr

/-- Byte strings: each entry is one byte value, `< 256` for well-formed data. -/
abbrev Bytes := List Nat

/-- All entries of a byte string are genuine byte values. -/
def bytesWf (bs : Bytes) : Prop := ∀ b ∈ bs, b < 256

instance : DecidablePred bytesWf := fun bs =>
  inferInstanceAs (Decidable (∀ b ∈ bs, b < 256))

/-! ## Lowercase hex encoding (`hex::encode`) and the consumer-side decoder -/

/-- The lowercase hex digit for a nibble, as produced by `hex::encode`. -/
def hexDigitChar (n : Nat) : Char :=
  if n < 10 then Char.ofNat (48 + n) else Char.ofNat (87 + n)

/-- The value of a hex digit character; accepts both cases, as `hex::decode` does. -/
def hexDigitVal (c : Char) : Option Nat :=
  if 48 ≤ c.toNat ∧ c.toNat ≤ 57 then some (c.toNat - 48)
  else if 97 ≤ c.toNat ∧ c.toNat ≤ 102 then some (c.toNat - 87)
  else if 65 ≤ c.toNat ∧ c.toNat ≤ 70 then some (c.toNat - 55)
  else none

/-- `hex::encode` on a byte string, character list form: two digits per byte,
high nibble first. -/
def hexEncodeChars : Bytes → List Char
  | [] => []
  | b :: bs => hexDigitChar (b / 16) :: hexDigitChar (b % 16) :: hexEncodeChars bs

/-- `hex::encode`: the lowercase hexadecimal rendering of a byte string. -/
def hexEncode (bs : Bytes) : String := String.mk (hexEncodeChars bs)

/-- Consumer-side hex decoding on character lists: pairs of digits, failing on
odd length or a non-digit. -/
def hexDecodeChars : List Char → Option Bytes
  | [] => some []
  | [_] => none
  | c1 :: c2 :: cs => do
    let h ← hexDigitVal c1
    let l ← hexDigitVal c2
    let rest ← hexDecodeChars cs
    pure ((16 * h + l) :: rest)

/-- Consumer-side hex decoding of a string. -/
def hexDecode (s : String) : Option Bytes := hexDecodeChars s.data

theorem hexDigitVal_hexDigitChar : ∀ n, n < 16 → hexDigitVal (hexDigitChar n) = some n := by
  decide

theorem hexEncodeChars_length (bs : Bytes) :
    (hexEncodeChars bs).length = 2 * bs.length := by
  induction bs with
  | nil => rfl
  | cons b bs ih => simp [hexEncodeChars, ih]; omega

theorem hexEncode_length (bs : Bytes) : (hexEncode bs).length = 2 * bs.length := by
  show (hexEncodeChars bs).length = 2 * bs.length
  exact hexEncodeChars_length bs

theorem hexDecodeChars_hexEncodeChars (bs : Bytes) (h : bytesWf bs) :
    hexDecodeChars (hexEncodeChars bs) = some bs := by
  induction bs with
  | nil => rfl
  | cons b rest ih =>
    have hb : b < 256 := h b (List.mem_cons_self _ _)
    have hhi : b / 16 < 16 := by omega
    have hlo : b % 16 < 16 := Nat.mod_lt _ (by omega)
    have hrest : bytesWf rest := fun x hx => h x (List.mem_cons_of_mem _ hx)
    simp only [hexEncodeChars, hexDecodeChars,
      hexDigitVal_hexDigitChar _ hhi, hexDigitVal_hexDigitChar _ hlo,
      ih hrest, Option.bind_some, Option.some_bind]
    have : 16 * (b / 16) + b % 16 = b := by omega
    simp [this]

theorem hexDecode_hexEncode (bs : Bytes) (h : bytesWf bs) :
    hexDecode (hexEncode bs) = some bs :=
  hexDecodeChars_hexEncodeChars bs h

/-! ## Domain objects consumed from external collaborators

The source file imports `BlockHash`, `Deploy`, `DeployHash`, `JsonBlock`,
`FinalitySignature`, `ProtocolVersion`, `PublicKey`, `ExecutionEffect`,
`ExecutionResult`, `EraId`, `Timestamp` and `TimeDiff` from the node crates.
Only their payload shape matters to this core; each is modelled from the spec
(§3, §6: "fully formed domain objects", hash and key fields opaque binary at
rest, numeric/time fields in their canonical units). -/

/-- A block hash: an opaque 32-byte digest at rest (`BlockHash` wraps `Digest`);
`inner` exposes the raw bytes as in `BlockHash::inner`. -/
structure BlockHash where
  bytes : Bytes
deriving Repr, DecidableEq

/-- `BlockHash::inner`: the underlying digest bytes. -/
def BlockHash.inner (h : BlockHash) : Bytes := h.bytes

/-- A deploy hash: an opaque 32-byte digest at rest; `inner` exposes the raw
bytes as in `DeployHash::inner`. -/
structure DeployHash where
  bytes : Bytes
deriving Repr, DecidableEq

/-- `DeployHash::inner`: the underlying digest bytes. -/
def DeployHash.inner (h : DeployHash) : Bytes := h.bytes

/-- Modelled from the spec: a public key, opaque binary at rest (the serialized
byte representation, as hex-encoded by `AsymmetricType::to_hex`). -/
structure PublicKey where
  bytes : Bytes
deriving Repr, DecidableEq

/-- `AsymmetricType::to_hex`: lowercase hex of the key's byte representation. -/
def PublicKey.to_hex (k : PublicKey) : String := hexEncode k.bytes

/-- Modelled from the spec: the protocol version carried by the `ApiVersion`
handshake sentinel (major/minor/patch, as in `ProtocolVersion`). -/
structure ProtocolVersion where
  major : Nat
  minor : Nat
  patch : Nat
deriving Repr, DecidableEq

/-- Modelled from the spec: the header of a deploy, carrying the submitting
account key, absolute timestamp, time-to-live and the ordered dependency
hash list (§3: order and duplicates of `dependencies` come from here). -/
structure DeployHeader where
  account : PublicKey
  timestamp : Nat
  ttl : Nat
  dependencies : List DeployHash
deriving Repr, DecidableEq

/-- Modelled from the spec: a deploy record, a "potentially large" domain
object identified by its hash (`Deploy::id` returns the hash). -/
structure Deploy where
  hash : DeployHash
  header : DeployHeader
deriving Repr, DecidableEq

/-- `Deploy::id`: the deploy's identifying hash. -/
def Deploy.id (d : Deploy) : DeployHash := d.hash

/-- Modelled from the spec: a block header; `height` is the field read by
`BlockAdded::get_height` (`self.block.header.height`). -/
structure BlockHeader where
  parent_hash : BlockHash
  height : Nat
  era_id : Nat
deriving Repr, DecidableEq

/-- Modelled from the spec: the full JSON-friendly block body wrapped by
`BlockAdded` (hash plus header; further body content is irrelevant to this
core's claims). -/
structure JsonBlock where
  hash : BlockHash
  header : BlockHeader
deriving Repr, DecidableEq

/-- Modelled from the spec: the set of state changes produced by execution. -/
structure ExecutionEffect where
  transforms : List String
deriving Repr, DecidableEq

/-- Modelled from the spec: an execution result, either success or failure,
each carrying its effect (the source's `Step::random` matches exactly these
two arms). -/
inductive ExecutionResult where
  | success (effect : ExecutionEffect) (cost : Nat)
  | failure (effect : ExecutionEffect) (cost : Nat) (error_message : String)
deriving Repr, DecidableEq

/-- Modelled from the spec: a finality signature (block hash, era, signature
bytes, validator public key), the payload wrapped by the `FinalitySignature`
event. -/
structure FinSig where
  block_hash : BlockHash
  era_id : Nat
  signature : Bytes
  public_key : PublicKey
deriving Repr, DecidableEq

/-! ## The event taxonomy (`sse_events.rs`) -/

/-- The version of this node's API server; always the first event sent to a
new client, with no associated event ID. -/
structure ApiVersion where
  version : ProtocolVersion
deriving Repr, DecidableEq

/-- The given block has been added to the linear chain and stored locally. -/
structure BlockAdded where
  block_hash : BlockHash
  block : JsonBlock
deriving Repr, DecidableEq

/-- `BlockAdded::hex_encoded_hash`: `hex::encode(self.block_hash.inner())`. -/
def BlockAdded.hex_encoded_hash (e : BlockAdded) : String :=
  hexEncode e.block_hash.inner

/-- `BlockAdded::get_height`: `self.block.header.height`. -/
def BlockAdded.get_height (e : BlockAdded) : Nat := e.block.header.height

/-- The given deploy has been newly accepted by this node.  The source stores
`Arc<Deploy>`; the `Arc` is value-transparent, so the payload is the deploy
itself. -/
structure DeployAccepted where
  deploy : Deploy
deriving Repr, DecidableEq

/-- `DeployAccepted::deploy_hash`: the wrapped deploy's own hash. -/
def DeployAccepted.deploy_hash (e : DeployAccepted) : DeployHash := e.deploy.id

/-- `DeployAccepted::hex_encoded_hash`: `hex::encode(self.deploy.id().inner())`. -/
def DeployAccepted.hex_encoded_hash (e : DeployAccepted) : String :=
  hexEncode e.deploy.id.inner

/-- The given deploy has been executed, committed, and forms part of the given
block. -/
structure DeployProcessed where
  deploy_hash : DeployHash
  account : PublicKey
  timestamp : Nat
  ttl : Nat
  dependencies : List DeployHash
  block_hash : BlockHash
  execution_result : ExecutionResult
deriving Repr, DecidableEq

/-- `DeployProcessed::hex_encoded_hash`: `hex::encode(self.deploy_hash.inner())`. -/
def DeployProcessed.hex_encoded_hash (e : DeployProcessed) : String :=
  hexEncode e.deploy_hash.inner

/-- The given deploy has expired. -/
structure DeployExpired where
  deploy_hash : DeployHash
deriving Repr, DecidableEq

/-- `DeployExpired::hex_encoded_hash`: `hex::encode(self.deploy_hash.inner())`. -/
def DeployExpired.hex_encoded_hash (e : DeployExpired) : String :=
  hexEncode e.deploy_hash.inner

/-- Generic representation of a validator's fault in an era. -/
structure Fault where
  era_id : Nat
  public_key : PublicKey
  timestamp : Nat
deriving Repr, DecidableEq

/-- New finality signature received (newtype over the wrapped signature). -/
structure FinalitySignature where
  sig : FinSig
deriving Repr, DecidableEq

/-- `FinalitySignature::inner`: a copy of the wrapped signature. -/
def FinalitySignature.inner (e : FinalitySignature) : FinSig := e.sig

/-- `FinalitySignature::hex_encoded_block_hash`:
`hex::encode(self.0.block_hash.inner())`. -/
def FinalitySignature.hex_encoded_block_hash (e : FinalitySignature) : String :=
  hexEncode e.sig.block_hash.inner

/-- `FinalitySignature::hex_encoded_public_key`: `self.0.public_key.to_hex()`. -/
def FinalitySignature.hex_encoded_public_key (e : FinalitySignature) : String :=
  e.sig.public_key.to_hex

/-- The execution effects produced by a `StepRequest`. -/
structure Step where
  era_id : Nat
  execution_effect : ExecutionEffect
deriving Repr, DecidableEq

/-! ## The wire encoding

Each `#[derive(Serialize)]` struct serializes to a JSON object with one member
per named field, in declaration order; newtype structs serialize transparently
as their inner value; `Arc<T>` serializes as `T`; `#[serde(flatten)]` merges
the flattened value's members into the containing object.  Hash, key and
signature bytes travel as lowercase hex strings (spec §3, §4.2).  The decoder
is the consumer-side counterpart (spec §4.2, §7): it looks fields up by name
and fails on anything missing or malformed. -/

/-- Field lookup by name in a JSON object's member list. -/
def lookupField : List (String × Json) → String → Option Json
  | [], _ => none
  | (k, v) :: fs, key => if key = k then some v else lookupField fs key

/-- Look a member up by name; fails on non-objects. -/
def Json.getField : Json → String → Option Json
  | .obj fs, key => lookupField fs key
  | _, _ => none

/-- Read a JSON number. -/
def Json.asNat : Json → Option Nat
  | .num n => some n
  | _ => none

/-- Read a JSON string. -/
def Json.asStr : Json → Option String
  | .str s => some s
  | _ => none

/-- Read a JSON array. -/
def Json.asArr : Json → Option (List Json)
  | .arr xs => some xs
  | _ => none

/-- Decode a hex-string JSON value back into bytes. -/
def decodeBytes (j : Json) : Option Bytes := j.asStr.bind hexDecode

/-- Decode every element of a JSON array, failing if any element fails. -/
def decodeList (f : Json → Option α) : List Json → Option (List α)
  | [] => some []
  | j :: js => do
    let x ← f j
    let xs ← decodeList f js
    pure (x :: xs)

/-- Modelled from the spec: wire form of the protocol version carried by the
`ApiVersion` sentinel (self-describing object with named numeric fields). -/
def encodeProtocolVersion (v : ProtocolVersion) : Json :=
  .obj [("major", .num v.major), ("minor", .num v.minor), ("patch", .num v.patch)]

/-- Consumer-side decoder for the protocol version. -/
def decodeProtocolVersion (j : Json) : Option ProtocolVersion := do
  let major ← (j.getField "major").bind Json.asNat
  let minor ← (j.getField "minor").bind Json.asNat
  let patch ← (j.getField "patch").bind Json.asNat
  pure ⟨major, minor, patch⟩

/-- `ApiVersion` is a newtype struct: it serializes transparently as the
wrapped protocol version. -/
def encodeApiVersion (e : ApiVersion) : Json := encodeProtocolVersion e.version

/-- Consumer-side decoder for `ApiVersion`. -/
def decodeApiVersion (j : Json) : Option ApiVersion :=
  (decodeProtocolVersion j).map ApiVersion.mk

theorem decodeApiVersion_encodeApiVersion (e : ApiVersion) :
    decodeApiVersion (encodeApiVersion e) = some e := by
  simp [decodeApiVersion, encodeApiVersion, decodeProtocolVersion,
    encodeProtocolVersion, Json.getField, lookupField, Json.asNat]

/-- Wire form of a block header. -/
def encodeBlockHeader (h : BlockHeader) : Json :=
  .obj [("parent_hash", .str (hexEncode h.parent_hash.bytes)),
        ("height", .num h.height),
        ("era_id", .num h.era_id)]

/-- Consumer-side decoder for a block header. -/
def decodeBlockHeader (j : Json) : Option BlockHeader := do
  let parent ← (j.getField "parent_hash").bind decodeBytes
  let height ← (j.getField "height").bind Json.asNat
  let era ← (j.getField "era_id").bind Json.asNat
  pure ⟨⟨parent⟩, height, era⟩

/-- Wire form of the full block body wrapped by `BlockAdded`. -/
def encodeJsonBlock (b : JsonBlock) : Json :=
  .obj [("hash", .str (hexEncode b.hash.bytes)),
        ("header", encodeBlockHeader b.header)]

/-- Consumer-side decoder for the block body. -/
def decodeJsonBlock (j : Json) : Option JsonBlock := do
  let hash ← (j.getField "hash").bind decodeBytes
  let header ← (j.getField "header").bind decodeBlockHeader
  pure ⟨⟨hash⟩, header⟩

/-- `BlockAdded` serializes as an object with its two named fields in
declaration order. -/
def encodeBlockAdded (e : BlockAdded) : Json :=
  .obj [("block_hash", .str (hexEncode e.block_hash.bytes)),
        ("block", encodeJsonBlock e.block)]

/-- Consumer-side decoder for `BlockAdded`. -/
def decodeBlockAdded (j : Json) : Option BlockAdded := do
  let bh ← (j.getField "block_hash").bind decodeBytes
  let blk ← (j.getField "block").bind decodeJsonBlock
  pure ⟨⟨bh⟩, blk⟩

/-- The member list of a serialized deploy record: the deploy's own named
fields.  `DeployAccepted` splices exactly this list into its own object via
`#[serde(flatten)]`. -/
def encodeDeployFields (d : Deploy) : List (String × Json) :=
  [("hash", .str (hexEncode d.hash.bytes)),
   ("header", .obj
     [("account", .str (hexEncode d.header.account.bytes)),
      ("timestamp", .num d.header.timestamp),
      ("ttl", .num d.header.ttl),
      ("dependencies",
        .arr (d.header.dependencies.map (fun h => .str (hexEncode h.bytes))))])]

/-- Wire form of a standalone deploy record. -/
def encodeDeploy (d : Deploy) : Json := .obj (encodeDeployFields d)

/-- Consumer-side decoder for one deploy hash inside an array. -/
def decodeDeployHashJson (j : Json) : Option DeployHash :=
  (decodeBytes j).map DeployHash.mk

/-- Consumer-side decoder for a dependency list. -/
def decodeDependencies (j : Json) : Option (List DeployHash) :=
  j.asArr.bind (decodeList decodeDeployHashJson)

/-- Consumer-side decoder for a deploy record. -/
def decodeDeploy (j : Json) : Option Deploy := do
  let hash ← (j.getField "hash").bind decodeBytes
  let hdr ← j.getField "header"
  let account ← (hdr.getField "account").bind decodeBytes
  let timestamp ← (hdr.getField "timestamp").bind Json.asNat
  let ttl ← (hdr.getField "ttl").bind Json.asNat
  let deps ← (hdr.getField "dependencies").bind decodeDependencies
  pure ⟨⟨hash⟩, ⟨⟨account⟩, timestamp, ttl, deps⟩⟩

/-- `DeployAccepted` serializes its single field with `#[serde(flatten)]`:
the shared deploy's members are merged directly into the event's own object,
with no nested wrapper key. -/
def encodeDeployAccepted (e : DeployAccepted) : Json :=
  .obj (encodeDeployFields e.deploy)

/-- Consumer-side decoder for `DeployAccepted`: reads the deploy's fields
straight off the event object. -/
def decodeDeployAccepted (j : Json) : Option DeployAccepted :=
  (decodeDeploy j).map DeployAccepted.mk

/-- Wire form of an execution effect. -/
def encodeExecutionEffect (eff : ExecutionEffect) : Json :=
  .obj [("transforms", .arr (eff.transforms.map Json.str))]

/-- Consumer-side decoder for an execution effect. -/
def decodeExecutionEffect (j : Json) : Option ExecutionEffect := do
  let ts ← (j.getField "transforms").bind (fun a => a.asArr.bind (decodeList Json.asStr))
  pure ⟨ts⟩

/-- Wire form of an execution result: externally tagged by its variant name,
as serde derives for the two-armed enum. -/
def encodeExecutionResult : ExecutionResult → Json
  | .success effect cost =>
    .obj [("Success", .obj [("effect", encodeExecutionEffect effect),
                            ("cost", .num cost)])]
  | .failure effect cost msg =>
    .obj [("Failure", .obj [("effect", encodeExecutionEffect effect),
                            ("cost", .num cost),
                            ("error_message", .str msg)])]

/-- Consumer-side decoder for an execution result: an unknown variant tag is
rejected, never coerced into a known arm (spec §7). -/
def decodeExecutionResult (j : Json) : Option ExecutionResult :=
  match j.getField "Success" with
  | some body => do
    let effect ← (body.getField "effect").bind decodeExecutionEffect
    let cost ← (body.getField "cost").bind Json.asNat
    pure (.success effect cost)
  | none =>
    match j.getField "Failure" with
    | some body => do
      let effect ← (body.getField "effect").bind decodeExecutionEffect
      let cost ← (body.getField "cost").bind Json.asNat
      let msg ← (body.getField "error_message").bind Json.asStr
      pure (.failure effect cost msg)
    | none => none

/-- `DeployProcessed` serializes as an object with its seven named fields in
declaration order; the dependency hashes keep their stored order. -/
def encodeDeployProcessed (e : DeployProcessed) : Json :=
  .obj [("deploy_hash", .str (hexEncode e.deploy_hash.bytes)),
        ("account", .str (hexEncode e.account.bytes)),
        ("timestamp", .num e.timestamp),
        ("ttl", .num e.ttl),
        ("dependencies",
          .arr (e.dependencies.map (fun h => .str (hexEncode h.bytes)))),
        ("block_hash", .str (hexEncode e.block_hash.bytes)),
        ("execution_result", encodeExecutionResult e.execution_result)]

/-- Consumer-side decoder for `DeployProcessed`. -/
def decodeDeployProcessed (j : Json) : Option DeployProcessed := do
  let dh ← (j.getField "deploy_hash").bind decodeBytes
  let account ← (j.getField "account").bind decodeBytes
  let timestamp ← (j.getField "timestamp").bind Json.asNat
  let ttl ← (j.getField "ttl").bind Json.asNat
  let deps ← (j.getField "dependencies").bind decodeDependencies
  let bh ← (j.getField "block_hash").bind decodeBytes
  let res ← (j.getField "execution_result").bind decodeExecutionResult
  pure ⟨⟨dh⟩, ⟨account⟩, timestamp, ttl, deps, ⟨bh⟩, res⟩

/-- `DeployExpired` serializes as an object with its single named field. -/
def encodeDeployExpired (e : DeployExpired) : Json :=
  .obj [("deploy_hash", .str (hexEncode e.deploy_hash.bytes))]

/-- Consumer-side decoder for `DeployExpired`. -/
def decodeDeployExpired (j : Json) : Option DeployExpired := do
  let dh ← (j.getField "deploy_hash").bind decodeBytes
  pure ⟨⟨dh⟩⟩

/-- `Fault` serializes as an object with its three named fields. -/
def encodeFault (e : Fault) : Json :=
  .obj [("era_id", .num e.era_id),
        ("public_key", .str (hexEncode e.public_key.bytes)),
        ("timestamp", .num e.timestamp)]

/-- Consumer-side decoder for `Fault`. -/
def decodeFault (j : Json) : Option Fault := do
  let era ← (j.getField "era_id").bind Json.asNat
  let pk ← (j.getField "public_key").bind decodeBytes
  let ts ← (j.getField "timestamp").bind Json.asNat
  pure ⟨era, ⟨pk⟩, ts⟩

/-- Wire form of the wrapped finality signature. -/
def encodeFinSig (s : FinSig) : Json :=
  .obj [("block_hash", .str (hexEncode s.block_hash.bytes)),
        ("era_id", .num s.era_id),
        ("signature", .str (hexEncode s.signature)),
        ("public_key", .str (hexEncode s.public_key.bytes))]

/-- Consumer-side decoder for the wrapped finality signature. -/
def decodeFinSig (j : Json) : Option FinSig := do
  let bh ← (j.getField "block_hash").bind decodeBytes
  let era ← (j.getField "era_id").bind Json.asNat
  let sig ← (j.getField "signature").bind decodeBytes
  let pk ← (j.getField "public_key").bind decodeBytes
  pure ⟨⟨bh⟩, era, sig, ⟨pk⟩⟩

/-- `FinalitySignature` is a newtype struct: it serializes transparently as
the wrapped signature. -/
def encodeFinalitySignature (e : FinalitySignature) : Json := encodeFinSig e.sig

/-- Consumer-side decoder for `FinalitySignature`. -/
def decodeFinalitySignature (j : Json) : Option FinalitySignature :=
  (decodeFinSig j).map FinalitySignature.mk

/-- `Step` serializes as an object with its two named fields. -/
def encodeStep (e : Step) : Json :=
  .obj [("era_id", .num e.era_id),
        ("execution_effect", encodeExecutionEffect e.execution_effect)]

/-- Consumer-side decoder for `Step`. -/
def decodeStep (j : Json) : Option Step := do
  let era ← (j.getField "era_id").bind Json.asNat
  let eff ← (j.getField "execution_effect").bind decodeExecutionEffect
  pure ⟨era, eff⟩

/-! ## Well-formed events

A constructed event is well-formed when every opaque binary field genuinely
holds byte values.  The upstream emitter hands this core already-validated
domain objects (spec §4.1), so well-formedness is the caller's precondition. -/

/-- Well-formed deploy record: all binary fields hold bytes. -/
def Deploy.wf (d : Deploy) : Prop :=
  bytesWf d.hash.bytes ∧ bytesWf d.header.account.bytes ∧
    ∀ h ∈ d.header.dependencies, bytesWf h.bytes

instance (d : Deploy) : Decidable d.wf := by
  unfold Deploy.wf; infer_instance

/-- Well-formed `BlockAdded`: all binary fields hold bytes. -/
def BlockAdded.wf (e : BlockAdded) : Prop :=
  bytesWf e.block_hash.bytes ∧ bytesWf e.block.hash.bytes ∧
    bytesWf e.block.header.parent_hash.bytes

instance (e : BlockAdded) : Decidable e.wf := by
  unfold BlockAdded.wf; infer_instance

/-- Well-formed `DeployAccepted`: the wrapped deploy is well-formed. -/
def DeployAccepted.wf (e : DeployAccepted) : Prop := e.deploy.wf

instance (e : DeployAccepted) : Decidable e.wf := by
  unfold DeployAccepted.wf; infer_instance

/-- Well-formed `DeployProcessed`: all binary fields hold bytes. -/
def DeployProcessed.wf (e : DeployProcessed) : Prop :=
  bytesWf e.deploy_hash.bytes ∧ bytesWf e.account.bytes ∧
    (∀ h ∈ e.dependencies, bytesWf h.bytes) ∧ bytesWf e.block_hash.bytes

instance (e : DeployProcessed) : Decidable e.wf := by
  unfold DeployProcessed.wf; infer_instance

/-- Well-formed `DeployExpired`: the hash holds bytes. -/
def DeployExpired.wf (e : DeployExpired) : Prop := bytesWf e.deploy_hash.bytes

instance (e : DeployExpired) : Decidable e.wf := by
  unfold DeployExpired.wf; infer_instance

/-- Well-formed `Fault`: the key holds bytes. -/
def Fault.wf (e : Fault) : Prop := bytesWf e.public_key.bytes

instance (e : Fault) : Decidable e.wf := by
  unfold Fault.wf; infer_instance

/-- Well-formed `FinalitySignature`: all binary fields hold bytes. -/
def FinalitySignature.wf (e : FinalitySignature) : Prop :=
  bytesWf e.sig.block_hash.bytes ∧ bytesWf e.sig.signature ∧
    bytesWf e.sig.public_key.bytes

instance (e : FinalitySignature) : Decidable e.wf := by
  unfold FinalitySignature.wf; infer_instance

/-! ## Round trips, component by component -/

theorem decodeList_asStr_map_str (xs : List String) :
    decodeList Json.asStr (xs.map Json.str) = some xs := by
  induction xs with
  | nil => rfl
  | cons x xs ih => simp [decodeList, ih, Json.asStr]

theorem decodeList_decodeDeployHashJson (deps : List DeployHash)
    (h : ∀ d ∈ deps, bytesWf d.bytes) :
    decodeList decodeDeployHashJson
      (deps.map (fun d => Json.str (hexEncode d.bytes))) = some deps := by
  induction deps with
  | nil => rfl
  | cons d ds ih =>
    have hd : bytesWf d.bytes := h d (by simp)
    have hds : ∀ x ∈ ds, bytesWf x.bytes := fun x hx => h x (by simp [hx])
    simp [decodeList, decodeDeployHashJson, decodeBytes, Json.asStr,
      hexDecode_hexEncode _ hd, ih hds]

theorem decodeDependencies_encoded (deps : List DeployHash)
    (h : ∀ d ∈ deps, bytesWf d.bytes) :
    decodeDependencies (.arr (deps.map (fun d => Json.str (hexEncode d.bytes))))
      = some deps := by
  simp [decodeDependencies, Json.asArr, decodeList_decodeDeployHashJson deps h]

theorem decodeExecutionEffect_encodeExecutionEffect (eff : ExecutionEffect) :
    decodeExecutionEffect (encodeExecutionEffect eff) = some eff := by
  simp [decodeExecutionEffect, encodeExecutionEffect, Json.getField,
    lookupField, Json.asArr, decodeList_asStr_map_str]

theorem decodeExecutionResult_encodeExecutionResult (r : ExecutionResult) :
    decodeExecutionResult (encodeExecutionResult r) = some r := by
  cases r <;>
    simp [decodeExecutionResult, encodeExecutionResult, Json.getField,
      lookupField, Json.asNat, Json.asStr,
      decodeExecutionEffect_encodeExecutionEffect]

theorem decodeBlockAdded_encodeBlockAdded (e : BlockAdded) (h : e.wf) :
    decodeBlockAdded (encodeBlockAdded e) = some e := by
  obtain ⟨h1, h2, h3⟩ := h
  simp [decodeBlockAdded, encodeBlockAdded, decodeJsonBlock, encodeJsonBlock,
    decodeBlockHeader, encodeBlockHeader, Json.getField, lookupField,
    decodeBytes, Json.asStr, Json.asNat, hexDecode_hexEncode _ h1,
    hexDecode_hexEncode _ h2, hexDecode_hexEncode _ h3]

theorem decodeDeploy_encodeDeploy (d : Deploy) (h : d.wf) :
    decodeDeploy (encodeDeploy d) = some d := by
  obtain ⟨h1, h2, h3⟩ := h
  simp [decodeDeploy, encodeDeploy, encodeDeployFields, Json.getField,
    lookupField, decodeBytes, Json.asStr, Json.asNat,
    hexDecode_hexEncode _ h1, hexDecode_hexEncode _ h2,
    decodeDependencies_encoded _ h3]

theorem decodeDeployAccepted_encodeDeployAccepted (e : DeployAccepted)
    (h : e.wf) :
    decodeDeployAccepted (encodeDeployAccepted e) = some e := by
  have : encodeDeployAccepted e = encodeDeploy e.deploy := rfl
  rw [decodeDeployAccepted, this, decodeDeploy_encodeDeploy e.deploy h]
  rfl

theorem decodeDeployProcessed_encodeDeployProcessed (e : DeployProcessed)
    (h : e.wf) :
    decodeDeployProcessed (encodeDeployProcessed e) = some e := by
  obtain ⟨h1, h2, h3, h4⟩ := h
  simp [decodeDeployProcessed, encodeDeployProcessed, Json.getField,
    lookupField, decodeBytes, Json.asStr, Json.asNat,
    hexDecode_hexEncode _ h1, hexDecode_hexEncode _ h2,
    decodeDependencies_encoded _ h3, hexDecode_hexEncode _ h4,
    decodeExecutionResult_encodeExecutionResult]

theorem decodeDeployExpired_encodeDeployExpired (e : DeployExpired)
    (h : e.wf) :
    decodeDeployExpired (encodeDeployExpired e) = some e := by
  simp [decodeDeployExpired, encodeDeployExpired, Json.getField, lookupField,
    decodeBytes, Json.asStr, hexDecode_hexEncode _ h]

theorem decodeFault_encodeFault (e : Fault) (h : e.wf) :
    decodeFault (encodeFault e) = some e := by
  simp [decodeFault, encodeFault, Json.getField, lookupField, decodeBytes,
    Json.asStr, Json.asNat, hexDecode_hexEncode _ h]

theorem decodeFinalitySignature_encodeFinalitySignature
    (e : FinalitySignature) (h : e.wf) :
    decodeFinalitySignature (encodeFinalitySignature e) = some e := by
  obtain ⟨h1, h2, h3⟩ := h
  simp [decodeFinalitySignature, encodeFinalitySignature, decodeFinSig,
    encodeFinSig, Json.getField, lookupField, decodeBytes, Json.asStr,
    Json.asNat, hexDecode_hexEncode _ h1, hexDecode_hexEncode _ h2,
    hexDecode_hexEncode _ h3]

theorem decodeStep_encodeStep (e : Step) :
    decodeStep (encodeStep e) = some e := by
  simp [decodeStep, encodeStep, Json.getField, lookupField, Json.asNat,
    decodeExecutionEffect_encodeExecutionEffect]

/-! ## The test-only synthetic generation harness

The `#[cfg(test)]` random constructors draw fresh domain objects from a
seeded `TestRng`.  The rng lives in an external crate, so each draw the
constructor makes is modelled as an explicit parameter: the block, deploy,
block hash or execution result the seeded generator would produce.  What the
source determines — how the drawn values and the optional override are
assembled into the event — is translated directly. -/

/-- `Block::set_height` (test helper used by `random_with_height`): replaces
the header's height and era. -/
def JsonBlock.set_height (b : JsonBlock) (height era : Nat) : JsonBlock :=
  { b with header := { b.header with height := height, era_id := era } }

/-- `BlockAdded::random`: wraps the drawn block, taking `block_hash` from the
block's own hash. -/
def BlockAdded.random (block : JsonBlock) : BlockAdded :=
  { block_hash := block.hash, block := block }

/-- `BlockAdded::random_with_height`: sets the drawn block's height (and a
default era) before wrapping it. -/
def BlockAdded.random_with_height (block : JsonBlock) (height : Nat) : BlockAdded :=
  let b := block.set_height height 0
  { block_hash := b.hash, block := b }

/-- `BlockAdded::random_with_hash`: pairs the drawn block with a `block_hash`
parsed from the supplied hex string — no consistency with the block is
enforced.  The source panics on malformed hex (`expect`); failure is modelled
as `none`. -/
def BlockAdded.random_with_hash (block : JsonBlock) (hash : String) :
    Option BlockAdded :=
  (hexDecode hash).map fun bs => { block_hash := ⟨bs⟩, block := block }

/-- `DeployAccepted::random`: wraps the drawn deploy. -/
def DeployAccepted.random (deploy : Deploy) : DeployAccepted :=
  { deploy := deploy }

/-- `DeployProcessed::random`: copies the drawn deploy's header fields, uses
the override hash if supplied (`with_deploy_hash.unwrap_or(*deploy.id())`),
and draws a fresh block hash and execution result. -/
def DeployProcessed.random (deploy : Deploy) (drawn_block_hash : BlockHash)
    (drawn_result : ExecutionResult) (with_deploy_hash : Option DeployHash) :
    DeployProcessed :=
  { deploy_hash := with_deploy_hash.getD deploy.id
    account := deploy.header.account
    timestamp := deploy.header.timestamp
    ttl := deploy.header.ttl
    dependencies := deploy.header.dependencies
    block_hash := drawn_block_hash
    execution_result := drawn_result }

/-- `DeployExpired::random`: uses the override hash if supplied, else the
drawn deploy's own hash. -/
def DeployExpired.random (deploy : Deploy) (with_deploy_hash : Option DeployHash) :
    DeployExpired :=
  { deploy_hash := with_deploy_hash.getD deploy.id }

/-- The member names of a serialized object (the wire-visible field set). -/
def fieldNames : Json → List String
  | .obj fs => fs.map Prod.fst
  | _ => []

/-! ## The claims -/

/-- C1: serializing a `DeployAccepted` event produces exactly the wrapped
deploy's own serialized record — identical member list, hence identical field
set, with no nested wrapper key for the deploy. -/
theorem deployAccepted_serializes_flattened (d : Deploy) :
    encodeDeployAccepted ⟨d⟩ = encodeDeploy d ∧
      fieldNames (encodeDeployAccepted ⟨d⟩) = fieldNames (encodeDeploy d) :=
  ⟨rfl, rfl⟩

/-- C2: for every variant, decoding the encoding of a well-formed event
recovers the event in all fields, and hex-encoded identifiers recover the
exact original binary value. -/
theorem roundtrip_all_variants :
    (∀ bs : Bytes, bytesWf bs → hexDecode (hexEncode bs) = some bs) ∧
    (∀ e : ApiVersion, decodeApiVersion (encodeApiVersion e) = some e) ∧
    (∀ e : BlockAdded, e.wf → decodeBlockAdded (encodeBlockAdded e) = some e) ∧
    (∀ e : DeployAccepted, e.wf →
      decodeDeployAccepted (encodeDeployAccepted e) = some e) ∧
    (∀ e : DeployProcessed, e.wf →
      decodeDeployProcessed (encodeDeployProcessed e) = some e) ∧
    (∀ e : DeployExpired, e.wf →
      decodeDeployExpired (encodeDeployExpired e) = some e) ∧
    (∀ e : Fault, e.wf → decodeFault (encodeFault e) = some e) ∧
    (∀ e : FinalitySignature, e.wf →
      decodeFinalitySignature (encodeFinalitySignature e) = some e) ∧
    (∀ e : Step, decodeStep (encodeStep e) = some e) :=
  ⟨hexDecode_hexEncode, decodeApiVersion_encodeApiVersion,
    decodeBlockAdded_encodeBlockAdded, decodeDeployAccepted_encodeDeployAccepted,
    decodeDeployProcessed_encodeDeployProcessed,
    decodeDeployExpired_encodeDeployExpired, decodeFault_encodeFault,
    decodeFinalitySignature_encodeFinalitySignature, decodeStep_encodeStep⟩

/-- Concrete well-formed events used to witness the round-trip claim. -/
def exDeploy : Deploy :=
  ⟨⟨[1, 255, 0]⟩, ⟨⟨[7, 8]⟩, 100, 3600, [⟨[5]⟩, ⟨[5]⟩, ⟨[9]⟩]⟩⟩

def exBlockAdded : BlockAdded := ⟨⟨[0, 171]⟩, ⟨⟨[12]⟩, ⟨⟨[34]⟩, 42, 7⟩⟩⟩

def exProcessed : DeployProcessed :=
  ⟨⟨[1]⟩, ⟨[2]⟩, 10, 20, [⟨[3]⟩, ⟨[3]⟩], ⟨[4]⟩, .failure ⟨["t1"]⟩ 5 "oops"⟩

def exFinSig : FinalitySignature := ⟨⟨⟨[16]⟩, 2, [17, 18], ⟨[1, 19]⟩⟩⟩

theorem roundtrip_all_variants_witness :
    hexDecode (hexEncode [0, 15, 255]) = some [0, 15, 255] ∧
    decodeApiVersion (encodeApiVersion ⟨⟨1, 2, 3⟩⟩) = some ⟨⟨1, 2, 3⟩⟩ ∧
    decodeBlockAdded (encodeBlockAdded exBlockAdded) = some exBlockAdded ∧
    decodeDeployAccepted (encodeDeployAccepted ⟨exDeploy⟩) = some ⟨exDeploy⟩ ∧
    decodeDeployProcessed (encodeDeployProcessed exProcessed) = some exProcessed ∧
    decodeDeployExpired (encodeDeployExpired ⟨⟨[255]⟩⟩) = some ⟨⟨[255]⟩⟩ ∧
    decodeFault (encodeFault ⟨3, ⟨[6]⟩, 9⟩) = some ⟨3, ⟨[6]⟩, 9⟩ ∧
    decodeFinalitySignature (encodeFinalitySignature exFinSig) = some exFinSig ∧
    decodeStep (encodeStep ⟨11, ⟨["w"]⟩⟩) = some ⟨11, ⟨["w"]⟩⟩ :=
  ⟨roundtrip_all_variants.1 _ (by decide),
    roundtrip_all_variants.2.1 _,
    roundtrip_all_variants.2.2.1 _ (by decide),
    roundtrip_all_variants.2.2.2.1 _ (by decide),
    roundtrip_all_variants.2.2.2.2.1 _ (by decide),
    roundtrip_all_variants.2.2.2.2.2.1 _ (by decide),
    roundtrip_all_variants.2.2.2.2.2.2.1 _ (by decide),
    roundtrip_all_variants.2.2.2.2.2.2.2.1 _ (by decide),
    roundtrip_all_variants.2.2.2.2.2.2.2.2 _⟩

/-- C3: every hex-encoding accessor returns a string exactly twice as long as
the underlying hash or key byte string. -/
theorem hex_accessor_length :
    (∀ e : BlockAdded, e.hex_encoded_hash.length = 2 * e.block_hash.inner.length) ∧
    (∀ e : DeployAccepted,
      e.hex_encoded_hash.length = 2 * e.deploy.id.inner.length) ∧
    (∀ e : DeployProcessed,
      e.hex_encoded_hash.length = 2 * e.deploy_hash.inner.length) ∧
    (∀ e : DeployExpired,
      e.hex_encoded_hash.length = 2 * e.deploy_hash.inner.length) ∧
    (∀ e : FinalitySignature,
      e.hex_encoded_block_hash.length = 2 * e.sig.block_hash.inner.length) ∧
    (∀ e : FinalitySignature,
      e.hex_encoded_public_key.length = 2 * e.sig.public_key.bytes.length) :=
  ⟨fun _ => hexEncode_length _, fun _ => hexEncode_length _,
    fun _ => hexEncode_length _, fun _ => hexEncode_length _,
    fun _ => hexEncode_length _, fun _ => hexEncode_length _⟩

/-- C4: `DeployProcessed` stores the dependency list exactly as supplied at
construction — order and duplicates intact — and serializes it element by
element in that stored order; the random constructor copies the drawn deploy
header's dependency list unchanged. -/
theorem dependencies_order_and_duplicates_preserved
    (dh : DeployHash) (acct : PublicKey) (ts tl : Nat)
    (deps : List DeployHash) (bh : BlockHash) (res : ExecutionResult)
    (deploy : Deploy) :
    (DeployProcessed.mk dh acct ts tl deps bh res).dependencies = deps ∧
    (encodeDeployProcessed (DeployProcessed.mk dh acct ts tl deps bh res)).getField
        "dependencies"
      = some (.arr (deps.map fun h => .str (hexEncode h.bytes))) ∧
    (DeployProcessed.random deploy bh res none).dependencies
      = deploy.header.dependencies :=
  ⟨rfl, by simp [encodeDeployProcessed, Json.getField, lookupField], rfl⟩

/-- C5: encoding and every correlation accessor are functions of the event's
own state alone — equal events give byte-identical encodings and identical
accessor output on every call. -/
theorem encoding_and_accessors_deterministic :
    (∀ e1 e2 : ApiVersion, e1 = e2 → encodeApiVersion e1 = encodeApiVersion e2) ∧
    (∀ e1 e2 : BlockAdded, e1 = e2 →
      encodeBlockAdded e1 = encodeBlockAdded e2 ∧
      e1.hex_encoded_hash = e2.hex_encoded_hash ∧
      e1.get_height = e2.get_height) ∧
    (∀ e1 e2 : DeployAccepted, e1 = e2 →
      encodeDeployAccepted e1 = encodeDeployAccepted e2 ∧
      e1.hex_encoded_hash = e2.hex_encoded_hash) ∧
    (∀ e1 e2 : DeployProcessed, e1 = e2 →
      encodeDeployProcessed e1 = encodeDeployProcessed e2 ∧
      e1.hex_encoded_hash = e2.hex_encoded_hash) ∧
    (∀ e1 e2 : DeployExpired, e1 = e2 →
      encodeDeployExpired e1 = encodeDeployExpired e2 ∧
      e1.hex_encoded_hash = e2.hex_encoded_hash) ∧
    (∀ e1 e2 : Fault, e1 = e2 → encodeFault e1 = encodeFault e2) ∧
    (∀ e1 e2 : FinalitySignature, e1 = e2 →
      encodeFinalitySignature e1 = encodeFinalitySignature e2 ∧
      e1.hex_encoded_block_hash = e2.hex_encoded_block_hash ∧
      e1.hex_encoded_public_key = e2.hex_encoded_public_key) ∧
    (∀ e1 e2 : Step, e1 = e2 → encodeStep e1 = encodeStep e2) := by
  refine ⟨?_, ?_, ?_, ?_, ?_, ?_, ?_, ?_⟩ <;> rintro e1 e2 rfl <;>
    first
    | exact ⟨rfl, rfl, rfl⟩
    | exact ⟨rfl, rfl⟩
    | rfl

theorem encoding_and_accessors_deterministic_witness :
    encodeBlockAdded exBlockAdded = encodeBlockAdded exBlockAdded ∧
    exBlockAdded.hex_encoded_hash = exBlockAdded.hex_encoded_hash ∧
    exBlockAdded.get_height = exBlockAdded.get_height :=
  encoding_and_accessors_deterministic.2.1 exBlockAdded exBlockAdded rfl

/-- C6: a `DeployExpired` whose hash bytes are `0x01` followed by 31 zero
bytes hex-encodes to `"01"` followed by thirty-one `"00"` pairs (64 lowercase
characters), and decoding its encoding reproduces the same 32 bytes. -/
theorem deployExpired_example_scenario :
    (DeployExpired.mk ⟨1 :: List.replicate 31 0⟩).hex_encoded_hash
        = "01" ++ String.join (List.replicate 31 "00") ∧
    (DeployExpired.mk ⟨1 :: List.replicate 31 0⟩).hex_encoded_hash.length = 64 ∧
    (decodeDeployExpired
        (encodeDeployExpired (DeployExpired.mk ⟨1 :: List.replicate 31 0⟩))).map
        DeployExpired.deploy_hash
      = some ⟨1 :: List.replicate 31 0⟩ := by
  refine ⟨by decide, by decide, ?_⟩
  rw [decodeDeployExpired_encodeDeployExpired _ (by decide)]
  rfl

/-- C7: `BlockAdded::get_height` returns exactly the wrapped block's header
height, whatever the other contents; in particular any event whose block has
header height 42 — e.g. one built by `random_with_height` at 42 — reports 42. -/
theorem get_height_equals_header_height (bh : BlockHash) (blk : JsonBlock) :
    (BlockAdded.mk bh blk).get_height = blk.header.height ∧
    (blk.header.height = 42 → (BlockAdded.mk bh blk).get_height = 42) ∧
    (∀ h : Nat, (BlockAdded.random_with_height blk h).get_height = h) :=
  ⟨rfl, fun h => h, fun _ => rfl⟩

theorem get_height_equals_header_height_witness :
    (BlockAdded.mk ⟨[9]⟩ ⟨⟨[12]⟩, ⟨⟨[34]⟩, 42, 7⟩⟩).get_height = 42 :=
  (get_height_equals_header_height ⟨[9]⟩ ⟨⟨[12]⟩, ⟨⟨[34]⟩, 42, 7⟩⟩).2.1 rfl

/-- C9: the random constructors taking an optional identifying-hash override
store exactly the supplied hash under `some`, and the drawn deploy's own hash
under `none`, whatever the seed draws. -/
theorem random_override_sets_deploy_hash (deploy : Deploy) (bh : BlockHash)
    (res : ExecutionResult) (h : DeployHash) :
    (DeployProcessed.random deploy bh res (some h)).deploy_hash = h ∧
    (DeployProcessed.random deploy bh res none).deploy_hash = deploy.id ∧
    (DeployExpired.random deploy (some h)).deploy_hash = h ∧
    (DeployExpired.random deploy none).deploy_hash = deploy.id :=
  ⟨rfl, rfl, rfl, rfl⟩

/-- C10: `BlockAdded::hex_encoded_hash` reads only the stored `block_hash`
field — events agreeing there hex-encode identically whatever their blocks —
and construction enforces no consistency between `block_hash` and the wrapped
block's hash: `random_with_hash` builds an event whose two hashes differ. -/
theorem hex_encoded_hash_depends_only_on_block_hash :
    (∀ e1 e2 : BlockAdded, e1.block_hash = e2.block_hash →
      e1.hex_encoded_hash = e2.hex_encoded_hash) ∧
    (∃ e : BlockAdded,
      BlockAdded.random_with_hash ⟨⟨[12]⟩, ⟨⟨[34]⟩, 1, 1⟩⟩ "ff" = some e ∧
        e.block_hash ≠ e.block.hash) := by
  constructor
  · intro e1 e2 h
    unfold BlockAdded.hex_encoded_hash BlockHash.inner
    rw [h]
  · exact ⟨⟨⟨[255]⟩, ⟨⟨[12]⟩, ⟨⟨[34]⟩, 1, 1⟩⟩⟩, by decide, by decide⟩

theorem hex_encoded_hash_depends_only_on_block_hash_witness :
    (BlockAdded.mk ⟨[0, 171]⟩ ⟨⟨[99]⟩, ⟨⟨[98]⟩, 5, 6⟩⟩).hex_encoded_hash
      = exBlockAdded.hex_encoded_hash :=
  hex_encoded_hash_depends_only_on_block_hash.1
    (BlockAdded.mk ⟨[0, 171]⟩ ⟨⟨[99]⟩, ⟨⟨[98]⟩, 5, 6⟩⟩) exBlockAdded rfl

end SseEvents
